import Mathlib

/-!
Verification of the lending environment (`lending/environments/lending.py`):
the applicant-sampling / cash-update / credit-shift pipeline of the
ML-fairness lending gym.  Floating point numbers are modelled as exact
rationals; Python `assert` failures and index errors are modelled with
`Except String`.
-/

namespace Lending

/-- `LoanDecision` enum from the source: REJECT = 0, ACCEPT = 1. -/
inductive LoanDecision where
  | REJECT
  | ACCEPT
deriving DecidableEq, Repr

/-- First index of the maximum element, as `np.argmax` computes it
(strictly-greater elements replace the running best, so ties keep the
first index).  `np.argmax` of an empty array is an error in numpy; we
return 0, a case no claim exercises. -/
def argmaxAux : List ℚ → Nat → Nat → ℚ → Nat
  | [], _, best, _ => best
  | x :: xs, i, best, bestV =>
      if bestV < x then argmaxAux xs (i + 1) i x
      else argmaxAux xs (i + 1) best bestV

/-- `np.argmax` on a rational vector. -/
def npArgmax : List ℚ → Nat
  | [] => 0
  | x :: xs => argmaxAux xs 1 0 x

/-- `np.clip(x, lo, hi)` on one scalar: `min hi (max lo x)` (numpy applies
the lower bound first, then the upper bound). -/
def npClip (x lo hi : ℚ) : ℚ := min hi (max lo x)

/-- Elementwise `np.clip` of a feature vector. -/
def npClipList (xs : List ℚ) (lo hi : ℚ) : List ℚ :=
  xs.map (fun x => npClip x lo hi)

/-- Sum of a list of rationals (`np.sum`). -/
def listSum : List ℚ → ℚ
  | [] => 0
  | x :: xs => x + listSum xs

/-- Modelled from the spec: a deterministic stand-in for
`np.random.RandomState`, whose internals are outside the analysed source.
The state is a natural number; each draw produces a value and the
successor state, so seeded runs replay identically. -/
structure RandomState where
  seed : Nat
  counter : Nat
deriving DecidableEq, Repr

/-- Modelled from the spec: one draw from the random source.  The produced
value is an arbitrary but fixed function of (seed, counter); the counter
advances by one, matching "advances on each sample". -/
def draw (r : RandomState) : Nat × RandomState :=
  ((r.seed * 1103515245 + r.counter * 12345 + 1013904223) % 1024,
   { r with counter := r.counter + 1 })

/-- Modelled from the spec: a fresh `np.random.RandomState()` as
constructed inside `_CreditShift.update`; only its draws feed diagnostic
assertions, so a fixed fresh state stands in for the OS-entropy seed. -/
def freshRandomState : RandomState := { seed := 0, counter := 0 }

/-- Modelled from the spec: pick a categorical index from weights given a
uniform draw in [0,1): walk the cumulative weights.  Out-of-mass draws
fall to the last index. -/
def pickIndex : List ℚ → ℚ → Nat
  | [], _ => 0
  | [_], _ => 0
  | w :: rest, u => if u < w then 0 else (pickIndex rest (u - w)) + 1

/-- Modelled from the spec: turn a raw draw (0..1023) into a uniform
rational in [0,1). -/
def unif (d : Nat) : ℚ := (d : ℚ) / 1024

/-- Modelled from the spec: a per-cluster sampling component of the
population model (built by `lending_params`, outside the analysed
source).  It produces a feature vector, a default outcome and a group
membership one-hot deterministically from one draw. -/
structure ClusterComponent where
  groupVec : List ℚ
  featuresOf : Nat → List ℚ
  defaultOf : Nat → Bool

/-- Modelled from the spec: one group's cluster mixture — ordered cluster
weights paired with per-cluster components.  `weights` is the only field
mutated during an episode. -/
structure GroupComponent where
  weights : List ℚ
  components : List ClusterComponent

/-- Modelled from the spec: the two-level mixture distribution over
groups, then clusters (`params.applicant_distribution`). -/
structure Distribution where
  weights : List ℚ
  components : List GroupComponent

/-- One sampled applicant: features, group one-hot, latent default flag. -/
structure Applicant where
  features : List ℚ
  group : List ℚ
  will_default : Bool
deriving DecidableEq

/-- Fallback cluster component used only when an index is out of range
during modelled sampling (a case the claims never reach). -/
def defaultCluster : ClusterComponent :=
  { groupVec := [], featuresOf := fun _ => [], defaultOf := fun _ => false }

/-- Modelled from the spec: sampling one cluster component — one draw
producing features, default outcome and the component's group one-hot. -/
def sampleCluster (c : ClusterComponent) (r : RandomState) :
    Applicant × RandomState :=
  let (d, r1) := draw r
  ({ features := c.featuresOf d, group := c.groupVec,
     will_default := c.defaultOf d }, r1)

/-- Modelled from the spec: sampling one group component — draw a cluster
index from the current cluster weights, then sample that cluster
(two draws total, in that fixed order). -/
def sampleGroup (gc : GroupComponent) (r : RandomState) :
    Applicant × RandomState :=
  let (d, r1) := draw r
  let idx := pickIndex gc.weights (unif d)
  sampleCluster (gc.components.getD idx defaultCluster) r1

/-- Modelled from the spec: sampling the full distribution — draw a group
index from the top-level mixture weights, then sample that group (three
draws total: group choice, cluster choice, feature draw). -/
def sampleDist (dist : Distribution) (r : RandomState) :
    Applicant × RandomState :=
  let (d, r1) := draw r
  let idx := pickIndex dist.weights (unif d)
  sampleGroup (dist.components.getD idx
    { weights := [], components := [] }) r1

/-- Modelled from the spec: the immutable parameter bundle built by
`lending_params.Params` (outside the analysed source): loan amount,
interest rate, cash bounds, observation bounds, shift increment and the
population model. -/
structure Params where
  applicant_distribution : Distribution
  loan_amount : ℚ
  interest_rate : ℚ
  bank_starting_cash : ℚ
  max_cash : ℚ
  min_observation : ℚ
  max_observation : ℚ
  cluster_shift_increment : ℚ

/-- The `State` attrs class of the source: random source, evolving
parameters, bank cash, and the optional applicant attributes (all `None`
before the first `_ApplicantSampler` run). -/
structure LState where
  rng : RandomState
  params : Params
  bank_cash : ℚ
  applicant_features : Option (List ℚ) := none
  group : Option (List ℚ) := none
  group_id : Option Nat := none
  will_default : Option Bool := none

/-- Python truthiness of the optional `will_default` flag:
`if state.will_default:` is taken only on `Some true` (`None` is falsy). -/
def truthy : Option Bool → Bool
  | some b => b
  | none => false

/-- `_CashUpdater.update`: no-op on REJECT; on ACCEPT, cash decreases by
`loan_amount` when the applicant will default, otherwise increases by
`loan_amount * interest_rate`. -/
def cashUpdate (state : LState) (action : LoanDecision) : LState :=
  if action = LoanDecision.REJECT then state
  else if truthy state.will_default then
    { state with bank_cash := state.bank_cash - state.params.loan_amount }
  else
    { state with bank_cash :=
        state.bank_cash + state.params.loan_amount * state.params.interest_rate }

/-- `_ApplicantSampler.update`: ignores the action, samples one applicant
from the population model using the state's rng, clips the features into
the observation bounds and overwrites the four applicant fields,
with `group_id = np.argmax(group)`. -/
def applicantUpdate (state : LState) : LState :=
  let params := state.params
  let res := sampleDist params.applicant_distribution state.rng
  { state with
    rng := res.2
    applicant_features :=
      some (npClipList res.1.features params.min_observation
        params.max_observation)
    group := some res.1.group
    group_id := some (npArgmax res.1.group)
    will_default := some res.1.will_default }

/-- `core.NoUpdate`, modelled from the spec: "a no-op updater". -/
def noUpdate (state : LState) (_action : LoanDecision) :
    Except String LState := .ok state

/-- The 10-iteration diagnostic loop of `_CreditShift.update`: each
iteration samples the indexed group component from the local random
source and asserts the sampled group one-hot matches `state.group`. -/
def diagGroupLoop (comp : GroupComponent) (g : List ℚ) :
    Nat → RandomState → Except String RandomState
  | 0, r => .ok r
  | n + 1, r =>
      let res := sampleGroup comp r
      if res.1.group = g then diagGroupLoop comp g n res.2
      else .error "AssertionError: sampled group does not match state group"

/-- The `enumerate(components)` diagnostic loop of `_CreditShift.update`:
samples each cluster component once and asserts the argmax of its sampled
features equals its index. -/
def diagArgmaxLoop : List ClusterComponent → Nat → RandomState →
    Except String RandomState
  | [], _, r => .ok r
  | c :: rest, idx, r =>
      let res := sampleCluster c r
      if npArgmax res.1.features = idx then diagArgmaxLoop rest (idx + 1) res.2
      else .error "AssertionError: sampled credit score argmax mismatch"

/-- The target-cluster computation of `_CreditShift.update`: one step
down on default, one step up on repayment, then
`min(·, len - 1)` and `max(·, 0)` — saturating at both edges of the
cluster array, never wrapping. -/
def clampTarget (cluster_id : Nat) (default : Bool) (len : Nat) : Nat :=
  (max (min (if default then (cluster_id : Int) - 1
             else (cluster_id : Int) + 1) ((len : Int) - 1)) 0).toNat

/-- The two in-place mutations of `_CreditShift.update` on its local copy
of the weights: subtract `mass` at the source cluster, then add `mass` at
the target cluster (reading the target's weight after the first write). -/
def shiftMass (ws : List ℚ) (cid tgt : Nat) (mass : ℚ) : List ℚ :=
  let probs1 := ws.set cid (ws.getD cid 0 - mass)
  probs1.set tgt (probs1.getD tgt 0 + mass)

/-- The final write-back of `_CreditShift.update`:
`state.params.applicant_distribution.components[group_id].weights = cluster_probs`.
Only the indexed group's weight list changes. -/
def writeWeights (s : LState) (gid : Nat) (comp : GroupComponent)
    (probs2 : List ℚ) : LState :=
  { s with params := { s.params with
      applicant_distribution := { s.params.applicant_distribution with
        components := (s.params.applicant_distribution.components).set gid
          { comp with weights := probs2 } } } }

/-- `_CreditShift.update`: no-op on REJECT; on ACCEPT, after the
group-sync assertion and the two diagnostic sampling loops (drawn from a
fresh local random source, never `state.rng`), moves
`min(cluster_shift_increment, weight at argmax(applicant_features))`
of mass from the applicant's current cluster to the adjacent target
cluster (down on default, up on repayment, clamped to the valid range),
asserting positivity of the source weight beforehand and the sum-to-one
and non-negativity invariants before writing the weights back.  Python
`assert` failures and index errors surface as `Except.error`. -/
def creditShiftUpdate (state : LState) (action : LoanDecision) :
    Except String LState :=
  if action = LoanDecision.REJECT then .ok state else
  match state.group_id, state.group with
  | some group_id, some g =>
    if group_id = npArgmax g then
      match (state.params.applicant_distribution.components)[group_id]? with
      | none => .error "IndexError: group component out of range"
      | some comp =>
        let cluster_probs := comp.weights
        match diagGroupLoop comp g 10 freshRandomState with
        | .error e => .error e
        | .ok r1 =>
          match diagArgmaxLoop comp.components 0 r1 with
          | .error e => .error e
          | .ok _ =>
            match state.applicant_features with
            | none => .error "TypeError: applicant features unset"
            | some feats =>
              let cluster_id := npArgmax feats
              let new_cluster : Nat :=
                clampTarget cluster_id (truthy state.will_default)
                  cluster_probs.length
              match cluster_probs[cluster_id]? with
              | none => .error "IndexError: cluster id out of range"
              | some w =>
                if 0 < w then
                  let mass := min state.params.cluster_shift_increment w
                  let probs1 := cluster_probs.set cluster_id (w - mass)
                  match probs1[new_cluster]? with
                  | none => .error "IndexError: new cluster out of range"
                  | some w2 =>
                    let probs2 := probs1.set new_cluster (w2 + mass)
                    if |listSum probs2 - 1| < 1 / 1000000 then
                      if probs2.all (fun p => decide (0 ≤ p)) then
                        .ok (writeWeights state group_id comp probs2)
                      else .error "AssertionError: cluster probs must be non-negative"
                    else .error "AssertionError: cluster probs must sum to 1"
                else .error "AssertionError: this cluster was sampled but has no mass"
    else .error "AssertionError: group id out of sync with group one-hot"
  | _, _ => .error "TypeError: group or group id unset"

/-- `BaseLendingEnv._step_impl`: cash updater, then the variant's
feedback updater, then the applicant sampler, in that fixed order. -/
def stepImpl (feedback : LState → LoanDecision → Except String LState)
    (state : LState) (action : LoanDecision) : Except String LState :=
  match feedback (cashUpdate state action) action with
  | .error e => .error e
  | .ok s2 => .ok (applicantUpdate s2)

/-- The environment variants: `SimpleLoans`/`DifferentialExpressionEnv`
wire in `core.NoUpdate` as `_parameter_updater`; `DelayedImpactEnv` wires
in `_CreditShift`. -/
inductive EnvVariant where
  | simple
  | delayedImpact
deriving DecidableEq, Repr

/-- Which feedback updater a variant wires into the pipeline. -/
def feedbackOf : EnvVariant → LState → LoanDecision → Except String LState
  | .simple => noUpdate
  | .delayedImpact => creditShiftUpdate

/-- `BaseLendingEnv._is_done`: true when bank cash is strictly less than
the loan amount. -/
def isDone (s : LState) : Bool := s.bank_cash < s.params.loan_amount

/-- `BaseLendingEnv._state_init`: fresh state with a deep copy of the
initial parameters, the given rng, the configured starting cash and unset
applicant fields, immediately followed by one `_ApplicantSampler` run. -/
def stateInit (p : Params) (r : RandomState) : LState :=
  applicantUpdate { rng := r, params := p, bank_cash := p.bank_starting_cash }

/-- The environment: variant, immutable initial parameters, live state,
and the terminated flag of the spec's {ready, terminated} machine. -/
structure Env where
  variant : EnvVariant
  initial_params : Params
  state : LState
  terminated : Bool

/-- `BaseLendingEnv.reset` together with the out-of-src
`core.FairnessEnv.reset`.  Modelled from the spec: reset re-creates the
state from the deep-copied initial parameters (retaining the rng stream),
runs the applicant sampler once and transitions to ready. -/
def resetEnv (v : EnvVariant) (p : Params) (r : RandomState) : Env :=
  { variant := v, initial_params := p, state := stateInit p r,
    terminated := false }

/-- `core.FairnessEnv.step`, modelled from the spec: stepping a
terminated environment raises; otherwise `_step_impl` runs the
three-updater pipeline and the environment transitions to terminated
exactly when `_is_done` (bank cash < loan amount) holds afterwards. -/
def envStep (e : Env) (action : LoanDecision) : Except String Env :=
  if e.terminated then .error "PostTerminationStep"
  else
    match stepImpl (feedbackOf e.variant) e.state action with
    | .error e => .error e
    | .ok s' => .ok { e with state := s', terminated := isDone s' }

/-- Run a finite action sequence through `envStep`. -/
def runSteps (e : Env) : List LoanDecision → Except String Env
  | [] => .ok e
  | a :: rest =>
      match envStep e a with
      | .error msg => .error msg
      | .ok e' => runSteps e' rest

/-- Reachability: the environments produced by a reset followed by any
finite sequence of successful steps. -/
def Reachable (v : EnvVariant) (p : Params) (r : RandomState) (e : Env) :
    Prop :=
  ∃ acts, runSteps (resetEnv v p r) acts = .ok e

/-- Cluster weights of one group of a state's population model (empty
when the group index is out of range). -/
def groupWeights (s : LState) (gid : Nat) : List ℚ :=
  ((s.params.applicant_distribution.components).getD gid
    { weights := [], components := [] }).weights

/-- A concrete cluster component with constant features and constant
default outcome, used for concrete witnesses. -/
def exClusterComp (gvec feats : List ℚ) (d : Bool) : ClusterComponent :=
  { groupVec := gvec, featuresOf := fun _ => feats, defaultOf := fun _ => d }

/-- A concrete two-cluster group: cluster 0 has one-hot features `[1,0]`
and defaults, cluster 1 has `[0,1]` and repays; both carry the group's
one-hot. -/
def exGroup (gvec : List ℚ) (ws : List ℚ) : GroupComponent :=
  { weights := ws,
    components := [exClusterComp gvec [1, 0] true,
                   exClusterComp gvec [0, 1] false] }

/-- A concrete two-group distribution whose top-level weights always pick
group 0. -/
def exDist (w0 w1 : List ℚ) : Distribution :=
  { weights := [1, 0],
    components := [exGroup [1, 0] w0, exGroup [0, 1] w1] }

/-- Concrete parameters realising the spec's cash scenario: starting cash
10000, loan amount 1000, interest rate 0.1, max cash 10000; group 0's
cluster weights `[0, 1]` make every sampled applicant a repaying
cluster-1 member. -/
def exParams : Params :=
  { applicant_distribution := exDist [0, 1] [0, 1],
    loan_amount := 1000, interest_rate := 1 / 10,
    bank_starting_cash := 10000, max_cash := 10000,
    min_observation := 0, max_observation := 2,
    cluster_shift_increment := 4 / 10 }

/-- A concrete mid-episode state whose applicant sits in cluster 1 of
group 0 and will default, with group-0 cluster weights `[1/2, 1/2]`:
accepting it shifts mass 4/10 from cluster 1 down to cluster 0. -/
def exShiftState : LState :=
  { rng := { seed := 7, counter := 3 },
    params := { exParams with
      applicant_distribution := exDist [1 / 2, 1 / 2] [0, 1] },
    bank_cash := 10000,
    applicant_features := some [0, 1], group := some [1, 0],
    group_id := some 0, will_default := some true }

/-- A concrete state whose applicant's current cluster (cluster 1 of
group 0) carries exactly zero mass. -/
def exZeroMassState : LState :=
  { exShiftState with params := { exParams with
      applicant_distribution := exDist [1, 0] [0, 1] } }

/-- `exShiftState` with a repaying applicant instead. -/
def exRepayState : LState := { exShiftState with will_default := some false }

/-- The state produced by accepting `exShiftState`'s defaulting
applicant in the credit shift updater: mass 4/10 moved from cluster 1
down to cluster 0 of group 0. -/
def exShiftResult : LState :=
  { exShiftState with params := { exShiftState.params with
      applicant_distribution :=
        { weights := [1, 0],
          components :=
            [{ exGroup [1, 0] [1 / 2, 1 / 2] with weights := [9 / 10, 1 / 10] },
             exGroup [0, 1] [0, 1]] } } }

/-- A freshly reset simple-variant environment over `exParams`. -/
def exEnv : Env := resetEnv .simple exParams ⟨0, 0⟩

/-- The state after accepting `exEnv`'s first (repaying) applicant:
cash grows to 10100, above `max_cash` = 10000. -/
def exStepState : LState :=
  { rng := ⟨0, 6⟩, params := exParams, bank_cash := 10100,
    applicant_features := some [0, 1], group := some [1, 0],
    group_id := some 0, will_default := some false }

/-- The environment after accepting `exEnv`'s first applicant. -/
def exStepEnv : Env :=
  { variant := .simple, initial_params := exParams,
    state := exStepState, terminated := false }

/-- `exEnv` with the terminated flag raised, for exercising
PostTerminationStep. -/
def exDoneEnv : Env := { exEnv with terminated := true }

/-- Result of the full delayed-impact pipeline on `exShiftState` with
ACCEPT: cash drops to 9000, group 0's weights shift to [9/10, 1/10], and
the next applicant (cluster 0 of group 0, defaulting) is sampled. -/
def exPipeState : LState :=
  { rng := ⟨7, 6⟩, params := exShiftResult.params, bank_cash := 9000,
    applicant_features := some [1, 0], group := some [1, 0],
    group_id := some 0, will_default := some true }

/-- `exStepState` with bank cash exactly at the loan amount. -/
def exBoundaryState : LState := { exStepState with bank_cash := 1000 }

/-- An environment sitting exactly at the termination boundary. -/
def exBoundaryEnv : Env :=
  { variant := .simple, initial_params := exParams,
    state := exBoundaryState, terminated := false }

/-- Bank-cash trajectory of a run: the cash after each successful step
(cut short at the first error). -/
def cashTraj (e : Env) : List LoanDecision → List ℚ
  | [] => []
  | a :: rest =>
      match envStep e a with
      | .error _ => []
      | .ok e' => e'.state.bank_cash :: cashTraj e' rest

/-- The sampled-applicant fields of a state. -/
def appView (s : LState) :
    Option (List ℚ) × Option (List ℚ) × Option Nat × Option Bool :=
  (s.applicant_features, s.group, s.group_id, s.will_default)

/-- Sampled-applicant trajectory of a run. -/
def appTraj (e : Env) : List LoanDecision →
    List (Option (List ℚ) × Option (List ℚ) × Option Nat × Option Bool)
  | [] => []
  | a :: rest =>
      match envStep e a with
      | .error _ => []
      | .ok e' => appView e'.state :: appTraj e' rest

/-- Induction invariant for the amended cash lower bound: the scalar
loan parameters never change, cash is non-negative, and a ready
(non-terminated) environment holds at least one loan's worth of cash. -/
def CashInv (p : Params) (e : Env) : Prop :=
  e.state.params.loan_amount = p.loan_amount ∧
  e.state.params.interest_rate = p.interest_rate ∧
  0 ≤ e.state.bank_cash ∧
  (e.terminated = false → p.loan_amount ≤ e.state.bank_cash)

/-- `_CreditShift.update` with a REJECT action returns the state
unchanged. -/
theorem creditShift_reject (s : LState) :
    creditShiftUpdate s .REJECT = .ok s := by
  simp [creditShiftUpdate]

/-- `_CashUpdater.update` changes at most `bank_cash`. -/
theorem cashUpdate_frame (s : LState) (a : LoanDecision) :
    (cashUpdate s a).rng = s.rng ∧ (cashUpdate s a).params = s.params ∧
    (cashUpdate s a).applicant_features = s.applicant_features ∧
    (cashUpdate s a).group = s.group ∧
    (cashUpdate s a).group_id = s.group_id ∧
    (cashUpdate s a).will_default = s.will_default := by
  unfold cashUpdate
  split
  · simp
  · split <;> simp

/-- `_ApplicantSampler.update` keeps rng-independent fields, advances the
rng and overwrites the applicant fields from the sampled applicant. -/
theorem applicantUpdate_fields (s : LState) :
    (applicantUpdate s).bank_cash = s.bank_cash ∧
    (applicantUpdate s).params = s.params ∧
    (applicantUpdate s).rng =
      (sampleDist s.params.applicant_distribution s.rng).2 ∧
    (applicantUpdate s).applicant_features =
      some (npClipList (sampleDist s.params.applicant_distribution s.rng).1.features
        s.params.min_observation s.params.max_observation) ∧
    (applicantUpdate s).group =
      some (sampleDist s.params.applicant_distribution s.rng).1.group ∧
    (applicantUpdate s).group_id =
      some (npArgmax (sampleDist s.params.applicant_distribution s.rng).1.group) ∧
    (applicantUpdate s).will_default =
      some (sampleDist s.params.applicant_distribution s.rng).1.will_default := by
  simp [applicantUpdate]

/-- Inversion of a successful accept-path `_CreditShift.update`: a
successful run names every intermediate value of the source's success
path, passes every assertion, and ends in the weight write-back. -/
theorem creditShift_ok_inversion {s s' : LState}
    (hok : creditShiftUpdate s .ACCEPT = .ok s') :
    ∃ gid g comp feats w,
      s.group_id = some gid ∧ s.group = some g ∧ gid = npArgmax g ∧
      (s.params.applicant_distribution.components)[gid]? = some comp ∧
      s.applicant_features = some feats ∧
      (comp.weights)[npArgmax feats]? = some w ∧ 0 < w ∧
      (let probs2 := shiftMass comp.weights (npArgmax feats)
          (clampTarget (npArgmax feats) (truthy s.will_default)
            comp.weights.length)
          (min s.params.cluster_shift_increment w)
       |listSum probs2 - 1| < 1 / 1000000 ∧
       (∀ p ∈ probs2, 0 ≤ p) ∧
       s' = writeWeights s gid comp probs2) := by
  unfold creditShiftUpdate at hok
  simp only [reduceIte, reduceCtorEq] at hok
  split at hok
  case h_2 => exact absurd hok (by simp)
  case h_1 _ gid g hgid hg =>
    split at hok
    case isFalse => exact absurd hok (by simp)
    case isTrue hsync =>
      split at hok
      case h_1 => exact absurd hok (by simp)
      case h_2 comp hcomp =>
        split at hok
        case h_1 => exact absurd hok (by simp)
        case h_2 r1 hr1 =>
          split at hok
          case h_1 => exact absurd hok (by simp)
          case h_2 r2 hr2 =>
            split at hok
            case h_1 => exact absurd hok (by simp)
            case h_2 feats hfeats =>
              split at hok
              case h_1 => exact absurd hok (by simp)
              case h_2 w hw =>
                split at hok
                case isFalse => exact absurd hok (by simp)
                case isTrue hpos =>
                  split at hok
                  case h_1 => exact absurd hok (by simp)
                  case h_2 w2 hw2 =>
                    split at hok
                    case isFalse => exact absurd hok (by simp)
                    case isTrue hsum =>
                      split at hok
                      case isFalse => exact absurd hok (by simp)
                      case isTrue hnn =>
                        have hps : shiftMass comp.weights (npArgmax feats)
                            (clampTarget (npArgmax feats)
                              (truthy s.will_default) comp.weights.length)
                            (min s.params.cluster_shift_increment w) =
                            (comp.weights.set (npArgmax feats)
                                (w - min s.params.cluster_shift_increment w)).set
                              (clampTarget (npArgmax feats)
                                (truthy s.will_default) comp.weights.length)
                              (w2 + min s.params.cluster_shift_increment w) := by
                          simp [shiftMass, List.getD_eq_getElem?_getD, hw, hw2]
                        refine ⟨gid, g, comp, feats, w, hgid, hg, hsync,
                          hcomp, hfeats, hw, hpos, ?_, ?_, ?_⟩
                        · rw [hps]; exact hsum
                        · rw [hps]
                          intro p hp
                          simp only [List.all_eq_true] at hnn
                          exact of_decide_eq_true (hnn p hp)
                        · rw [hps]
                          injection hok with h
                          exact h.symm

/-- Frame of a successful accept-path `_CreditShift.update`: everything
except the applicant's group's weight list is unchanged — rng, cash, the
applicant fields, all scalar parameters, the top-level group mixture
weights, every other group's component, and the cluster components of
the applicant's own group. -/
theorem creditShift_ok_frame {s s' : LState}
    (hok : creditShiftUpdate s .ACCEPT = .ok s') :
    s'.rng = s.rng ∧ s'.bank_cash = s.bank_cash ∧
    s'.applicant_features = s.applicant_features ∧
    s'.group = s.group ∧ s'.group_id = s.group_id ∧
    s'.will_default = s.will_default ∧
    s'.params.loan_amount = s.params.loan_amount ∧
    s'.params.interest_rate = s.params.interest_rate ∧
    s'.params.bank_starting_cash = s.params.bank_starting_cash ∧
    s'.params.max_cash = s.params.max_cash ∧
    s'.params.min_observation = s.params.min_observation ∧
    s'.params.max_observation = s.params.max_observation ∧
    s'.params.cluster_shift_increment = s.params.cluster_shift_increment ∧
    s'.params.applicant_distribution.weights =
      s.params.applicant_distribution.weights ∧
    (∀ i, s.group_id ≠ some i →
      (s'.params.applicant_distribution.components)[i]? =
        (s.params.applicant_distribution.components)[i]?) ∧
    (∀ (i : Nat) (c c' : GroupComponent),
      (s.params.applicant_distribution.components)[i]? = some c →
      (s'.params.applicant_distribution.components)[i]? = some c' →
      c'.components = c.components) := by
  obtain ⟨gid, g, comp, feats, w, hgid, hg, hsync, hcomp, hfeats, hw, hpos,
    hsum, hnn, hs'⟩ := creditShift_ok_inversion hok
  subst hs'
  refine ⟨rfl, rfl, rfl, rfl, rfl, rfl, rfl, rfl, rfl, rfl, rfl, rfl, rfl,
    rfl, ?_, ?_⟩
  · intro i hi
    have hne : gid ≠ i := by
      intro h; exact hi (h ▸ hgid)
    simp [writeWeights, List.getElem?_set_ne hne]
  · intro i c c' hc hc'
    by_cases hie : gid = i
    · subst hie
      have hlen : gid < (s.params.applicant_distribution.components).length := by
        by_contra hge
        rw [List.getElem?_eq_none (Nat.le_of_not_lt hge)] at hcomp
        cases hcomp
      rw [writeWeights] at hc'
      simp only [List.getElem?_set_eq_of_lt _ hlen] at hc'
      have hcc : c = comp := by
        rw [hcomp] at hc; exact (Option.some_inj.mp hc).symm
      cases hc'
      simp [hcc]
    · rw [writeWeights] at hc'
      simp only [List.getElem?_set_ne hie] at hc'
      rw [hc] at hc'
      cases hc'
      rfl

/-- Every variant's feedback updater, when it succeeds, preserves the
rng, the bank cash, the applicant fields and all scalar parameters. -/
theorem feedback_ok_frame (v : EnvVariant) {s s' : LState}
    {a : LoanDecision} (hok : feedbackOf v s a = .ok s') :
    s'.rng = s.rng ∧ s'.bank_cash = s.bank_cash ∧
    s'.applicant_features = s.applicant_features ∧
    s'.group = s.group ∧ s'.group_id = s.group_id ∧
    s'.will_default = s.will_default ∧
    s'.params.loan_amount = s.params.loan_amount ∧
    s'.params.interest_rate = s.params.interest_rate ∧
    s'.params.bank_starting_cash = s.params.bank_starting_cash ∧
    s'.params.max_cash = s.params.max_cash := by
  cases v with
  | simple =>
    have : s = s' := by
      simpa [feedbackOf, noUpdate] using hok
    subst this
    exact ⟨rfl, rfl, rfl, rfl, rfl, rfl, rfl, rfl, rfl, rfl⟩
  | delayedImpact =>
    cases a with
    | REJECT =>
      have : s = s' := by
        have h := creditShift_reject s
        rw [feedbackOf] at hok
        rw [h] at hok
        exact Except.ok.inj hok
      subst this
      exact ⟨rfl, rfl, rfl, rfl, rfl, rfl, rfl, rfl, rfl, rfl⟩
    | ACCEPT =>
      obtain ⟨h1, h2, h3, h4, h5, h6, h7, h8, h9, h10, _⟩ :=
        creditShift_ok_frame hok
      exact ⟨h1, h2, h3, h4, h5, h6, h7, h8, h9, h10⟩

/-- Inversion of a successful `envStep`: the environment was not
terminated, the pipeline ran cash → feedback → sampler, and the new
terminated flag is exactly `_is_done` of the new state. -/
theorem envStep_ok_inversion {e e' : Env} {a : LoanDecision}
    (h : envStep e a = .ok e') :
    e.terminated = false ∧
    ∃ s2, feedbackOf e.variant (cashUpdate e.state a) a = .ok s2 ∧
      e' = { e with state := applicantUpdate s2,
                    terminated := isDone (applicantUpdate s2) } := by
  unfold envStep at h
  split at h
  · exact absurd h (by simp)
  · next hterm =>
    split at h
    · exact absurd h (by simp)
    · next sfin hfin =>
      unfold stepImpl at hfin
      split at hfin
      · exact absurd hfin (by simp)
      · next s2 hs2 =>
        injection hfin with hfin
        injection h with h
        subst hfin
        refine ⟨by simpa using hterm, s2, hs2, ?_⟩
        rw [← h]

/-- C3: `CashUpdater.update` with action = reject leaves bank cash
unchanged; with action = accept it decreases bank cash by `loan_amount`
when the applicant's will_default flag is true, and increases it by
`loan_amount * interest_rate` when it is false.  With cash 10000, loan
1000 and interest rate 0.1: accept-and-repay gives 10100,
accept-and-default gives 9000, reject leaves 10000. -/
theorem C3_cash_updater (s : LState) :
    cashUpdate s .REJECT = s ∧
    (s.will_default = some true →
      (cashUpdate s .ACCEPT).bank_cash =
        s.bank_cash - s.params.loan_amount) ∧
    (s.will_default = some false →
      (cashUpdate s .ACCEPT).bank_cash =
        s.bank_cash + s.params.loan_amount * s.params.interest_rate) ∧
    (s.bank_cash = 10000 → s.params.loan_amount = 1000 →
      s.params.interest_rate = 1 / 10 →
      (s.will_default = some false →
        (cashUpdate s .ACCEPT).bank_cash = 10100) ∧
      (s.will_default = some true →
        (cashUpdate s .ACCEPT).bank_cash = 9000) ∧
      (cashUpdate s .REJECT).bank_cash = 10000) := by
  refine ⟨by simp [cashUpdate], ?_, ?_, ?_⟩
  · intro h
    simp [cashUpdate, truthy, h]
  · intro h
    simp [cashUpdate, truthy, h]
  · intro hc hl hr
    refine ⟨?_, ?_, ?_⟩
    · intro h
      simp [cashUpdate, truthy, h, hc, hl, hr]
      norm_num
    · intro h
      simp [cashUpdate, truthy, h, hc, hl, hr]
      norm_num
    · simp [cashUpdate, hc]

/-- Witness for C3 at the concrete scenario states: a defaulting
applicant accepted at cash 10000 leaves 9000, a repaying one leaves
10100, and reject leaves the state untouched. -/
theorem C3_cash_updater_witness :
    (cashUpdate exShiftState .ACCEPT).bank_cash = 9000 ∧
    (cashUpdate exRepayState .ACCEPT).bank_cash = 10100 ∧
    cashUpdate exShiftState .REJECT = exShiftState := by
  refine ⟨?_, ?_, (C3_cash_updater exShiftState).1⟩
  · exact ((C3_cash_updater exShiftState).2.2.2 rfl rfl rfl).2.1 rfl
  · exact ((C3_cash_updater exRepayState).2.2.2 rfl rfl rfl).1 rfl

/-- C1: for every group whose cluster weights sum to 1 (within 1e-6) and
are all non-negative before the update, after any completed application
of the credit shift updater with action = accept, that group's cluster
weights still sum to 1 within 1e-6 and every weight is non-negative. -/
theorem C1_mass_conservation (s s' : LState) (gid : Nat)
    (hsum : |listSum (groupWeights s gid) - 1| < 1 / 1000000)
    (hnn : ∀ p ∈ groupWeights s gid, 0 ≤ p)
    (hok : creditShiftUpdate s .ACCEPT = .ok s') :
    |listSum (groupWeights s' gid) - 1| < 1 / 1000000 ∧
    ∀ p ∈ groupWeights s' gid, 0 ≤ p := by
  obtain ⟨gid0, g, comp, feats, w, hgid, hg, hsync, hcomp, hfeats, hw, hpos,
    hsum2, hnn2, hs'⟩ := creditShift_ok_inversion hok
  subst hs'
  by_cases hie : gid0 = gid
  · subst hie
    have hlen : gid0 < (s.params.applicant_distribution.components).length := by
      by_contra hge
      rw [List.getElem?_eq_none (Nat.le_of_not_lt hge)] at hcomp
      cases hcomp
    have hws : groupWeights (writeWeights s gid0 comp
        (shiftMass comp.weights (npArgmax feats)
          (clampTarget (npArgmax feats) (truthy s.will_default)
            comp.weights.length)
          (min s.params.cluster_shift_increment w))) gid0 =
        shiftMass comp.weights (npArgmax feats)
          (clampTarget (npArgmax feats) (truthy s.will_default)
            comp.weights.length)
          (min s.params.cluster_shift_increment w) := by
      simp [groupWeights, writeWeights, List.getD_eq_getElem?_getD,
        List.getElem?_set_eq_of_lt _ hlen]
    rw [hws]
    exact ⟨hsum2, hnn2⟩
  · have hws : groupWeights (writeWeights s gid0 comp
        (shiftMass comp.weights (npArgmax feats)
          (clampTarget (npArgmax feats) (truthy s.will_default)
            comp.weights.length)
          (min s.params.cluster_shift_increment w))) gid =
        groupWeights s gid := by
      simp [groupWeights, writeWeights, List.getD_eq_getElem?_getD,
        List.getElem?_set_ne hie]
    rw [hws]
    exact ⟨hsum, hnn⟩

/-- Witness for C1: accepting `exShiftState`'s defaulting applicant
moves the weights of group 0 from [1/2, 1/2] to [9/10, 1/10], which
still sum to 1 and stay non-negative. -/
theorem C1_mass_conservation_witness :
    |listSum (groupWeights exShiftResult 0) - 1| < 1 / 1000000 ∧
    ∀ p ∈ groupWeights exShiftResult 0, 0 ≤ p := by
  refine C1_mass_conservation exShiftState exShiftResult 0 ?_ ?_ ?_
  · norm_num [groupWeights, exShiftState, exParams, exDist, exGroup,
      exClusterComp, listSum]
  · norm_num [groupWeights, exShiftState, exParams, exDist, exGroup,
      exClusterComp]
  · norm_num [creditShiftUpdate, diagGroupLoop, diagArgmaxLoop, sampleGroup,
      sampleCluster, draw, pickIndex, unif, npArgmax, argmaxAux,
      freshRandomState, exShiftState, exShiftResult, exParams, exDist,
      exGroup, exClusterComp, truthy, listSum, clampTarget, shiftMass,
      writeWeights]
    decide

/-- C10: on accept, a completed credit shift mutates only the
applicant's own group's cluster weights — the rng (the diagnostic
sampling uses a fresh local random source, so `state.rng` is not
advanced), bank cash, the four applicant fields, all scalar parameters,
the top-level group-mixture weights, every other group's component, and
the cluster-component definitions of the applicant's own group are all
unchanged. -/
theorem C10_credit_shift_frame (s s' : LState)
    (hok : creditShiftUpdate s .ACCEPT = .ok s') :
    s'.rng = s.rng ∧ s'.bank_cash = s.bank_cash ∧
    s'.applicant_features = s.applicant_features ∧
    s'.group = s.group ∧ s'.group_id = s.group_id ∧
    s'.will_default = s.will_default ∧
    s'.params.loan_amount = s.params.loan_amount ∧
    s'.params.interest_rate = s.params.interest_rate ∧
    s'.params.bank_starting_cash = s.params.bank_starting_cash ∧
    s'.params.max_cash = s.params.max_cash ∧
    s'.params.min_observation = s.params.min_observation ∧
    s'.params.max_observation = s.params.max_observation ∧
    s'.params.cluster_shift_increment = s.params.cluster_shift_increment ∧
    s'.params.applicant_distribution.weights =
      s.params.applicant_distribution.weights ∧
    (∀ i, s.group_id ≠ some i →
      (s'.params.applicant_distribution.components)[i]? =
        (s.params.applicant_distribution.components)[i]?) ∧
    (∀ (i : Nat) (c c' : GroupComponent),
      (s.params.applicant_distribution.components)[i]? = some c →
      (s'.params.applicant_distribution.components)[i]? = some c' →
      c'.components = c.components) :=
  creditShift_ok_frame hok

/-- Witness for C10 at the concrete shift: group 1's component and
every non-weight field of `exShiftState` survive the accept shift. -/
theorem C10_credit_shift_frame_witness :
    exShiftResult.rng = exShiftState.rng ∧
    exShiftResult.bank_cash = exShiftState.bank_cash ∧
    exShiftResult.will_default = exShiftState.will_default ∧
    (exShiftResult.params.applicant_distribution.components)[1]? =
      (exShiftState.params.applicant_distribution.components)[1]? := by
  have h := C10_credit_shift_frame exShiftState exShiftResult (by
    norm_num [creditShiftUpdate, diagGroupLoop, diagArgmaxLoop, sampleGroup,
      sampleCluster, draw, pickIndex, unif, npArgmax, argmaxAux,
      freshRandomState, exShiftState, exShiftResult, exParams, exDist,
      exGroup, exClusterComp, truthy, listSum, clampTarget, shiftMass,
      writeWeights]
    decide)
  refine ⟨h.1, h.2.1, h.2.2.2.2.2.1, ?_⟩
  exact h.2.2.2.2.2.2.2.2.2.2.2.2.2.2.1 1 (by
    norm_num [exShiftState])

/-- C6: two independent runs from equal parameter templates and equal
random-source states, under the same action sequence, produce identical
bank-cash trajectories and identical sampled-applicant sequences. -/
theorem C6_determinism (v : EnvVariant) (p1 p2 : Params)
    (r1 r2 : RandomState) (acts : List LoanDecision)
    (hp : p1 = p2) (hr : r1 = r2) :
    cashTraj (resetEnv v p1 r1) acts = cashTraj (resetEnv v p2 r2) acts ∧
    appTraj (resetEnv v p1 r1) acts = appTraj (resetEnv v p2 r2) acts := by
  subst hp
  subst hr
  exact ⟨rfl, rfl⟩

/-- Witness for C6: two runs over `exParams` from seed state (0, 0)
with a three-step action sequence agree on both trajectories. -/
theorem C6_determinism_witness :
    cashTraj (resetEnv .delayedImpact exParams ⟨0, 0⟩)
        [.ACCEPT, .REJECT, .ACCEPT] =
      cashTraj (resetEnv .delayedImpact exParams ⟨0, 0⟩)
        [.ACCEPT, .REJECT, .ACCEPT] ∧
    appTraj (resetEnv .delayedImpact exParams ⟨0, 0⟩)
        [.ACCEPT, .REJECT, .ACCEPT] =
      appTraj (resetEnv .delayedImpact exParams ⟨0, 0⟩)
        [.ACCEPT, .REJECT, .ACCEPT] :=
  C6_determinism .delayedImpact exParams exParams ⟨0, 0⟩ ⟨0, 0⟩
    [.ACCEPT, .REJECT, .ACCEPT] rfl rfl

/-- Writing back the value already stored at an index leaves a list
unchanged. -/
theorem set_getElem?_self (l : List ℚ) (i : Nat) (w : ℚ)
    (h : l[i]? = some w) : l.set i w = l := by
  induction l generalizing i with
  | nil => rfl
  | cons x xs ih =>
    cases i with
    | zero =>
      simp only [List.getElem?_cons_zero, Option.some_inj] at h
      simp [h]
    | succ n =>
      simp only [List.getElem?_cons_succ] at h
      simp [ih n h]

/-- C2: a completed accept-path credit shift takes the applicant's
current cluster to be the argmax of the applicant's feature vector,
targets the cluster below on default and above on repayment, clamps the
target to the valid index range (saturating, never wrapping), and moves
`min(shift increment, current cluster weight)` of mass from current to
target within the applicant's group; when the clamped target equals the
source the weights are unchanged; reject changes nothing. -/
theorem C2_credit_shift_functional (s s' : LState) (gid : Nat)
    (feats : List ℚ) (hgid : s.group_id = some gid)
    (hf : s.applicant_features = some feats)
    (hok : creditShiftUpdate s .ACCEPT = .ok s') :
    groupWeights s' gid =
      shiftMass (groupWeights s gid) (npArgmax feats)
        (clampTarget (npArgmax feats) (truthy s.will_default)
          (groupWeights s gid).length)
        (min s.params.cluster_shift_increment
          ((groupWeights s gid).getD (npArgmax feats) 0)) ∧
    (clampTarget (npArgmax feats) (truthy s.will_default)
        (groupWeights s gid).length = npArgmax feats →
      groupWeights s' gid = groupWeights s gid) ∧
    (∀ t : LState, creditShiftUpdate t .REJECT = .ok t) := by
  obtain ⟨gid0, g, comp, feats0, w, hgid0, hg, hsync, hcomp, hfeats0, hw,
    hpos, hsum2, hnn2, hs'⟩ := creditShift_ok_inversion hok
  have hgg : gid0 = gid := by
    rw [hgid] at hgid0
    exact (Option.some_inj.mp hgid0).symm
  subst hgg
  have hff : feats0 = feats := by
    rw [hf] at hfeats0
    exact (Option.some_inj.mp hfeats0).symm
  subst hff
  have hlen : gid0 < (s.params.applicant_distribution.components).length := by
    by_contra hge
    rw [List.getElem?_eq_none (Nat.le_of_not_lt hge)] at hcomp
    cases hcomp
  have hgw : groupWeights s gid0 = comp.weights := by
    simp [groupWeights, List.getD_eq_getElem?_getD, hcomp]
  have hgd : (groupWeights s gid0).getD (npArgmax feats0) 0 = w := by
    rw [hgw]
    simp [List.getD_eq_getElem?_getD, hw]
  subst hs'
  have hws' : groupWeights (writeWeights s gid0 comp
      (shiftMass comp.weights (npArgmax feats0)
        (clampTarget (npArgmax feats0) (truthy s.will_default)
          comp.weights.length)
        (min s.params.cluster_shift_increment w))) gid0 =
      shiftMass comp.weights (npArgmax feats0)
        (clampTarget (npArgmax feats0) (truthy s.will_default)
          comp.weights.length)
        (min s.params.cluster_shift_increment w) := by
    simp [groupWeights, writeWeights, List.getD_eq_getElem?_getD,
      List.getElem?_set_eq_of_lt _ hlen]
  refine ⟨?_, ?_, fun t => creditShift_reject t⟩
  · rw [hws', hgw]
    simp [List.getD_eq_getElem?_getD, hw]
  · intro htgt
    rw [hgw] at htgt
    rw [hws', hgw, htgt]
    have hcid : npArgmax feats0 < comp.weights.length := by
      by_contra hge
      rw [List.getElem?_eq_none (Nat.le_of_not_lt hge)] at hw
      cases hw
    unfold shiftMass
    simp only [List.getD_eq_getElem?_getD, hw, Option.getD_some,
      List.getElem?_set_eq_of_lt _ hcid, List.set_set]
    have hwm : w - min s.params.cluster_shift_increment w +
        min s.params.cluster_shift_increment w = w := by ring
    rw [hwm]
    exact set_getElem?_self comp.weights (npArgmax feats0) w hw

/-- Witness for C2: the concrete defaulting applicant at cluster 1 of
group 0 shifts [1/2, 1/2] into [9/10, 1/10] exactly as the shift-mass
formula prescribes, and a repaying applicant at the top cluster targets
its own cluster, leaving the weights unchanged. -/
theorem C2_credit_shift_functional_witness :
    groupWeights exShiftResult 0 =
      shiftMass (groupWeights exShiftState 0) (npArgmax [0, 1])
        (clampTarget (npArgmax [0, 1]) (truthy exShiftState.will_default)
          (groupWeights exShiftState 0).length)
        (min exShiftState.params.cluster_shift_increment
          ((groupWeights exShiftState 0).getD (npArgmax [0, 1]) 0)) ∧
    groupWeights exRepayState 0 = groupWeights exRepayState 0 := by
  constructor
  · exact (C2_credit_shift_functional exShiftState exShiftResult 0 [0, 1]
      rfl rfl (by
        norm_num [creditShiftUpdate, diagGroupLoop, diagArgmaxLoop,
          sampleGroup, sampleCluster, draw, pickIndex, unif, npArgmax,
          argmaxAux, freshRandomState, exShiftState, exShiftResult, exParams,
          exDist, exGroup, exClusterComp, truthy, listSum, clampTarget,
          shiftMass, writeWeights]
        decide)).1
  · exact (C2_credit_shift_functional exRepayState exRepayState 0 [0, 1]
      rfl rfl (by
        norm_num [creditShiftUpdate, diagGroupLoop, diagArgmaxLoop,
          sampleGroup, sampleCluster, draw, pickIndex, unif, npArgmax,
          argmaxAux, freshRandomState, exRepayState, exShiftState, exParams,
          exDist, exGroup, exClusterComp, truthy, listSum, clampTarget,
          shiftMass, writeWeights])).2.1 (by
        norm_num [clampTarget, npArgmax, argmaxAux, groupWeights, truthy,
          exRepayState, exShiftState, exParams, exDist, exGroup,
          exClusterComp])

/-- The group diagnostic loop only ever fails with its own message. -/
theorem diagGroupLoop_error (comp : GroupComponent) (g : List ℚ) :
    ∀ (n : Nat) (r : RandomState) (e : String),
      diagGroupLoop comp g n r = .error e →
      e = "AssertionError: sampled group does not match state group" := by
  intro n
  induction n with
  | zero =>
    intro r e h
    simp [diagGroupLoop] at h
  | succ n ih =>
    intro r e h
    rw [diagGroupLoop] at h
    split at h
    · exact ih _ _ h
    · injection h with h
      exact h.symm

/-- The argmax diagnostic loop only ever fails with its own message. -/
theorem diagArgmaxLoop_error :
    ∀ (cs : List ClusterComponent) (i : Nat) (r : RandomState) (e : String),
      diagArgmaxLoop cs i r = .error e →
      e = "AssertionError: sampled credit score argmax mismatch" := by
  intro cs
  induction cs with
  | nil =>
    intro i r e h
    simp [diagArgmaxLoop] at h
  | cons c rest ih =>
    intro i r e h
    rw [diagArgmaxLoop] at h
    split at h
    · exact ih _ _ _ h
    · injection h with h
      exact h.symm

/-- C9: when the accepted applicant's identified current cluster carries
exactly zero mass, the credit shift updater can never complete — and
once the group-sync check and the diagnostic sampling loops pass, it
fails with precisely the zero-mass assertion; when the current cluster's
weight is positive, that assertion is never raised. -/
theorem C9_zero_mass (s : LState) (gid : Nat) (g feats : List ℚ)
    (comp : GroupComponent)
    (hgid : s.group_id = some gid) (hg : s.group = some g)
    (hcomp : (s.params.applicant_distribution.components)[gid]? = some comp)
    (hfeats : s.applicant_features = some feats) :
    ((comp.weights)[npArgmax feats]? = some 0 →
      (∀ s', creditShiftUpdate s .ACCEPT ≠ .ok s') ∧
      (gid = npArgmax g →
        ∀ r1 r2, diagGroupLoop comp g 10 freshRandomState = .ok r1 →
          diagArgmaxLoop comp.components 0 r1 = .ok r2 →
          creditShiftUpdate s .ACCEPT =
            .error "AssertionError: this cluster was sampled but has no mass")) ∧
    (∀ w, (comp.weights)[npArgmax feats]? = some w → 0 < w →
      creditShiftUpdate s .ACCEPT ≠
        .error "AssertionError: this cluster was sampled but has no mass") := by
  constructor
  · intro hzero
    constructor
    · intro s' hok
      obtain ⟨gid0, g0, comp0, feats0, w, hgid0, hg0, hsync, hcomp0,
        hfeats0, hw, hpos, _⟩ := creditShift_ok_inversion hok
      rw [hgid] at hgid0
      injection hgid0 with hgg
      subst hgg
      rw [hcomp] at hcomp0
      injection hcomp0 with hcc
      subst hcc
      rw [hfeats] at hfeats0
      injection hfeats0 with hff
      subst hff
      rw [hzero] at hw
      injection hw with hww
      rw [← hww] at hpos
      exact lt_irrefl 0 hpos
    · intro hsync r1 r2 hd1 hd2
      unfold creditShiftUpdate
      simp only [hgid, hg, hcomp, hfeats, hd1, hd2, hzero, reduceIte]
      rw [if_pos hsync]
      simp only [lt_irrefl, reduceIte]
      split
      · next hAR => exact absurd hAR (by decide)
      · rfl
  · intro w hw hpos heq
    unfold creditShiftUpdate at heq
    simp only [hgid, hg, hcomp, hfeats, hw] at heq
    split at heq
    · cases heq
    · split at heq
      · split at heq
        · next e he =>
          injection heq with heq
          have := diagGroupLoop_error comp g 10 freshRandomState e he
          rw [this] at heq
          exact absurd heq (by decide)
        · next r1 hr1 =>
          split at heq
          · next e he =>
            injection heq with heq
            have := diagArgmaxLoop_error comp.components 0 r1 e he
            rw [this] at heq
            exact absurd heq (by decide)
          · next r2 hr2 =>
            split at heq
            · injection heq with heq
              exact absurd heq (by decide)
            · next w2 hw2 =>
              split at heq
              · split at heq
                · cases heq
                · injection heq with heq
                  exact absurd heq (by decide)
              · injection heq with heq
                exact absurd heq (by decide)
      · injection heq with heq
        exact absurd heq (by decide)

/-- Witness for C9: on `exZeroMassState` (cluster 1 of group 0 holds
zero mass) the updater stops with the zero-mass assertion; on
`exShiftState` (cluster 1 holds mass 1/2) that assertion is not
raised. -/
theorem C9_zero_mass_witness :
    creditShiftUpdate exZeroMassState .ACCEPT =
      .error "AssertionError: this cluster was sampled but has no mass" ∧
    creditShiftUpdate exShiftState .ACCEPT ≠
      .error "AssertionError: this cluster was sampled but has no mass" := by
  constructor
  · exact ((C9_zero_mass exZeroMassState 0 [1, 0] [0, 1]
        (exGroup [1, 0] [1, 0]) rfl rfl
        (by norm_num [exZeroMassState, exShiftState, exParams, exDist])
        rfl).1
      (by norm_num [npArgmax, argmaxAux, exGroup, exClusterComp])).2
      (by norm_num [npArgmax, argmaxAux]) ⟨0, 20⟩ ⟨0, 22⟩
      (by norm_num [diagGroupLoop, sampleGroup, sampleCluster, draw,
        pickIndex, unif, exGroup, exClusterComp, defaultCluster,
        freshRandomState])
      (by norm_num [diagArgmaxLoop, sampleCluster, draw, npArgmax,
        argmaxAux, exGroup, exClusterComp])
  · exact (C9_zero_mass exShiftState 0 [1, 0] [0, 1]
        (exGroup [1, 0] [1 / 2, 1 / 2]) rfl rfl
        (by norm_num [exShiftState, exParams, exDist])
        rfl).2 (1 / 2)
      (by norm_num [npArgmax, argmaxAux, exGroup, exClusterComp])
      (by norm_num)

/-- The accept action is not the reject action (reduces the leading
guard of the updaters during concrete evaluation). -/
theorem accept_ne_reject :
    (LoanDecision.ACCEPT = LoanDecision.REJECT) = False := by
  simp


/-- C4: one step runs exactly the three updates cash → feedback →
sampler in that fixed order: the cash change and the credit shift are
both computed from the applicant that was current when the step began
(the first two updaters preserve all four applicant fields, and the
feedback updater sees the already-settled cash), and only the final
sampler overwrites the applicant fields with the next sampled
applicant. -/
theorem C4_step_pipeline (v : EnvVariant) (s s' : LState)
    (a : LoanDecision)
    (hok : stepImpl (feedbackOf v) s a = .ok s') :
    ∃ s2, feedbackOf v (cashUpdate s a) a = .ok s2 ∧
      s' = applicantUpdate s2 ∧
      (cashUpdate s a).applicant_features = s.applicant_features ∧
      (cashUpdate s a).group = s.group ∧
      (cashUpdate s a).group_id = s.group_id ∧
      (cashUpdate s a).will_default = s.will_default ∧
      s2.applicant_features = s.applicant_features ∧
      s2.group = s.group ∧ s2.group_id = s.group_id ∧
      s2.will_default = s.will_default ∧
      s2.bank_cash = (cashUpdate s a).bank_cash ∧
      s'.applicant_features = some (npClipList
        (sampleDist s2.params.applicant_distribution s2.rng).1.features
        s2.params.min_observation s2.params.max_observation) ∧
      s'.group =
        some (sampleDist s2.params.applicant_distribution s2.rng).1.group ∧
      s'.group_id = some (npArgmax
        (sampleDist s2.params.applicant_distribution s2.rng).1.group) ∧
      s'.will_default = some
        (sampleDist s2.params.applicant_distribution s2.rng).1.will_default := by
  unfold stepImpl at hok
  split at hok
  · exact absurd hok (by simp)
  · next s2 hs2 =>
    injection hok with hok
    have hcf := cashUpdate_frame s a
    have hff := feedback_ok_frame v hs2
    have haf := applicantUpdate_fields s2
    subst hok
    refine ⟨s2, hs2, rfl, hcf.2.2.1, hcf.2.2.2.1, hcf.2.2.2.2.1,
      hcf.2.2.2.2.2, ?_, ?_, ?_, ?_, hff.2.1, haf.2.2.2.1,
      haf.2.2.2.2.1, haf.2.2.2.2.2.1, haf.2.2.2.2.2.2⟩
    · exact hff.2.2.1.trans hcf.2.2.1
    · exact hff.2.2.2.1.trans hcf.2.2.2.1
    · exact hff.2.2.2.2.1.trans hcf.2.2.2.2.1
    · exact hff.2.2.2.2.2.1.trans hcf.2.2.2.2.2

set_option maxHeartbeats 2000000 in
/-- Witness for C4: the delayed-impact pipeline on `exShiftState` with
ACCEPT factors through an intermediate state that still carries the
original applicant's fields. -/
theorem C4_step_pipeline_witness :
    ∃ s2, feedbackOf .delayedImpact (cashUpdate exShiftState .ACCEPT)
        .ACCEPT = .ok s2 ∧
      exPipeState = applicantUpdate s2 ∧
      s2.will_default = exShiftState.will_default ∧
      s2.group = exShiftState.group := by
  obtain ⟨s2, h1, h2, _, _, _, _, _, hgr, _, hwd, _⟩ :=
    C4_step_pipeline .delayedImpact exShiftState exPipeState .ACCEPT (by
      norm_num [accept_ne_reject, stepImpl, feedbackOf, creditShiftUpdate, diagGroupLoop,
        diagArgmaxLoop, sampleGroup, sampleCluster, sampleDist, draw,
        pickIndex, unif, npArgmax, argmaxAux, freshRandomState, cashUpdate,
        applicantUpdate, npClipList, npClip, truthy, listSum, clampTarget,
        shiftMass, writeWeights, defaultCluster, exShiftState, exShiftResult,
        exPipeState, exParams, exDist, exGroup, exClusterComp])
  exact ⟨s2, h1, h2, hwd, hgr⟩

/-- C5: the environment is terminated exactly when bank cash is strictly
below the loan amount: `_is_done` is that strict comparison, cash equal
to `loan_amount` is not done, a successful step sets the terminated flag
exactly when the new cash is strictly below the loan amount, and any
step on a terminated environment raises PostTerminationStep. -/
theorem C5_termination_boundary (e e' : Env) (a : LoanDecision) :
    (isDone e.state = true ↔
      e.state.bank_cash < e.state.params.loan_amount) ∧
    (e.state.bank_cash = e.state.params.loan_amount →
      isDone e.state = false) ∧
    (envStep e a = .ok e' →
      (e'.terminated = true ↔
        e'.state.bank_cash < e'.state.params.loan_amount)) ∧
    (e.terminated = true →
      envStep e a = .error "PostTerminationStep") := by
  refine ⟨by simp [isDone], ?_, ?_, ?_⟩
  · intro h
    simp [isDone, h]
  · intro hok
    obtain ⟨hterm, s2, hs2, he'⟩ := envStep_ok_inversion hok
    subst he'
    simp [isDone]
  · intro hterm
    simp [envStep, hterm]

set_option maxHeartbeats 2000000 in
/-- Witness for C5: the stepped environment's flag matches the strict
comparison (10100 is not below 1000), an environment with cash exactly
at the loan amount is not done, and stepping a terminated environment
raises PostTerminationStep. -/
theorem C5_termination_boundary_witness :
    (exStepEnv.terminated = true ↔
      exStepEnv.state.bank_cash < exStepEnv.state.params.loan_amount) ∧
    isDone exBoundaryEnv.state = false ∧
    envStep exDoneEnv .ACCEPT = .error "PostTerminationStep" := by
  refine ⟨?_, ?_, ?_⟩
  · exact (C5_termination_boundary exEnv exStepEnv .ACCEPT).2.2.1 (by
      norm_num [accept_ne_reject, envStep, stepImpl, feedbackOf, noUpdate,
        resetEnv, stateInit,
        applicantUpdate, cashUpdate, truthy, sampleDist, sampleGroup,
        sampleCluster, draw, pickIndex, unif, npArgmax, argmaxAux,
        npClipList, npClip, isDone, exEnv, exParams, exDist, exGroup,
        exClusterComp, exStepEnv, exStepState, defaultCluster])
  · exact (C5_termination_boundary exBoundaryEnv exStepEnv .ACCEPT).2.1 (by
      norm_num [exBoundaryEnv, exBoundaryState, exStepState, exParams])
  · exact (C5_termination_boundary exDoneEnv exStepEnv .ACCEPT).2.2.2 rfl

set_option maxHeartbeats 2000000 in
/-- One accepted (repaying) loan from the freshly reset environment
lands exactly on `exStepEnv`. -/
theorem exStepEnv_reached :
    runSteps (resetEnv .simple exParams ⟨0, 0⟩) [.ACCEPT] = .ok exStepEnv := by
  norm_num [accept_ne_reject, runSteps, envStep, stepImpl, feedbackOf,
    noUpdate, resetEnv, stateInit, applicantUpdate, cashUpdate, truthy,
    sampleDist, sampleGroup, sampleCluster, draw, pickIndex, unif, npArgmax,
    argmaxAux, npClipList, npClip, isDone, exParams, exDist, exGroup,
    exClusterComp, exStepEnv, exStepState, defaultCluster]

/-- C7 counterexample: with starting cash 10000 = max_cash, loan 1000
and rate 0.1, one accepted repaying loan drives a reachable state's
bank cash to 10100, strictly above `max_cash` — the claimed upper bound
does not hold on reachable states. -/
theorem C7_counterexample :
    Reachable .simple exParams ⟨0, 0⟩ exStepEnv ∧
    exStepEnv.state.params.max_cash < exStepEnv.state.bank_cash := by
  exact ⟨⟨[.ACCEPT], exStepEnv_reached⟩,
    by norm_num [exStepEnv, exStepState, exParams]⟩

/-- One environment step preserves the cash-invariant bundle. -/
theorem envStep_cashInv {p : Params} {e e' : Env} {a : LoanDecision}
    (hl : 0 ≤ p.loan_amount) (hr : 0 ≤ p.interest_rate)
    (hok : envStep e a = .ok e') (hinv : CashInv p e) : CashInv p e' := by
  obtain ⟨hterm, s2, hs2, he'⟩ := envStep_ok_inversion hok
  obtain ⟨hl1, hr1, hc0, hcl⟩ := hinv
  have hcf := cashUpdate_frame e.state a
  have hff := feedback_ok_frame e.variant hs2
  have haf := applicantUpdate_fields s2
  have hloan2 : s2.params.loan_amount = p.loan_amount := by
    rw [hff.2.2.2.2.2.2.1, hcf.2.1, hl1]
  have hrate2 : s2.params.interest_rate = p.interest_rate := by
    rw [hff.2.2.2.2.2.2.2.1, hcf.2.1, hr1]
  have hcash2 : s2.bank_cash = (cashUpdate e.state a).bank_cash := hff.2.1
  have hle : p.loan_amount ≤ e.state.bank_cash := hcl hterm
  have hnewpos : 0 ≤ (cashUpdate e.state a).bank_cash := by
    unfold cashUpdate
    split
    · exact hc0
    · split
      · simp only
        rw [hl1]
        linarith
      · simp only
        have hm := mul_nonneg (hl1 ▸ hl) (hr1 ▸ hr)
        linarith
  subst he'
  refine ⟨?_, ?_, ?_, ?_⟩
  · show (applicantUpdate s2).params.loan_amount = p.loan_amount
    rw [haf.2.1, hloan2]
  · show (applicantUpdate s2).params.interest_rate = p.interest_rate
    rw [haf.2.1, hrate2]
  · show 0 ≤ (applicantUpdate s2).bank_cash
    rw [haf.1, hcash2]
    exact hnewpos
  · intro hdone
    show p.loan_amount ≤ (applicantUpdate s2).bank_cash
    have hd2 : isDone (applicantUpdate s2) = false := hdone
    simp only [isDone, decide_eq_false_iff_not, not_lt] at hd2
    rw [haf.2.1, hloan2] at hd2
    exact hd2

/-- Running any action list preserves the cash-invariant bundle. -/
theorem runSteps_cashInv {p : Params} (hl : 0 ≤ p.loan_amount)
    (hr : 0 ≤ p.interest_rate) :
    ∀ (acts : List LoanDecision) (e e' : Env),
      CashInv p e → runSteps e acts = .ok e' → CashInv p e' := by
  intro acts
  induction acts with
  | nil =>
    intro e e' hinv h
    rw [runSteps] at h
    injection h with h
    rw [← h]
    exact hinv
  | cons a rest ih =>
    intro e e' hinv h
    rw [runSteps] at h
    split at h
    · cases h
    · next e1 he1 => exact ih e1 e' (envStep_cashInv hl hr he1 hinv) h

/-- A freshly reset environment satisfies the cash-invariant bundle
whenever the starting cash covers one loan. -/
theorem resetEnv_cashInv (v : EnvVariant) (p : Params) (r : RandomState)
    (hl : 0 ≤ p.loan_amount) (hs : p.loan_amount ≤ p.bank_starting_cash) :
    CashInv p (resetEnv v p r) := by
  have haf := applicantUpdate_fields
    { rng := r, params := p, bank_cash := p.bank_starting_cash }
  refine ⟨?_, ?_, ?_, fun _ => ?_⟩
  · show (stateInit p r).params.loan_amount = p.loan_amount
    rw [stateInit, haf.2.1]
  · show (stateInit p r).params.interest_rate = p.interest_rate
    rw [stateInit, haf.2.1]
  · show 0 ≤ (stateInit p r).bank_cash
    rw [stateInit, haf.1]
    exact le_trans hl hs
  · show p.loan_amount ≤ (stateInit p r).bank_cash
    rw [stateInit, haf.1]
    exact hs

/-- C7 amended: when the loan amount and interest rate are non-negative
and the starting cash covers at least one loan, bank cash stays
non-negative in every reachable state; the upper bound `max_cash` is
only the declared observation-space bound and is not enforced
(see the counterexample). -/
theorem C7_cash_nonneg (v : EnvVariant) (p : Params) (r : RandomState)
    (e : Env) (hl : 0 ≤ p.loan_amount) (hr : 0 ≤ p.interest_rate)
    (hs : p.loan_amount ≤ p.bank_starting_cash)
    (hreach : Reachable v p r e) : 0 ≤ e.state.bank_cash := by
  obtain ⟨acts, hrun⟩ := hreach
  exact (runSteps_cashInv hl hr acts _ e
    (resetEnv_cashInv v p r hl hs) hrun).2.2.1

/-- Witness for the amended C7 at the reachable over-cash state: its
bank cash 10100 is indeed non-negative. -/
theorem C7_cash_nonneg_witness : 0 ≤ exStepEnv.state.bank_cash :=
  C7_cash_nonneg .simple exParams ⟨0, 0⟩ exStepEnv
    (by norm_num [exParams]) (by norm_num [exParams])
    (by norm_num [exParams]) ⟨[.ACCEPT], exStepEnv_reached⟩

/-- The applicant sampler always writes a consistent pair: the group id
it stores is the argmax of the group one-hot it stores. -/
theorem applicantUpdate_sync (s : LState) (g : List ℚ)
    (h : (applicantUpdate s).group = some g) :
    (applicantUpdate s).group_id = some (npArgmax g) := by
  have haf := applicantUpdate_fields s
  rw [haf.2.2.2.2.1] at h
  injection h with h
  rw [haf.2.2.2.2.2.1, h]

/-- One environment step keeps group id and group one-hot in sync. -/
theorem envStep_sync {e e' : Env} {a : LoanDecision}
    (hok : envStep e a = .ok e') (g : List ℚ)
    (h : e'.state.group = some g) :
    e'.state.group_id = some (npArgmax g) := by
  obtain ⟨_, s2, _, he'⟩ := envStep_ok_inversion hok
  subst he'
  exact applicantUpdate_sync s2 g h

/-- Running any action list keeps group id and group one-hot in sync. -/
theorem runSteps_sync :
    ∀ (acts : List LoanDecision) (e e' : Env),
      (∀ g, e.state.group = some g →
        e.state.group_id = some (npArgmax g)) →
      runSteps e acts = .ok e' →
      ∀ g, e'.state.group = some g →
        e'.state.group_id = some (npArgmax g) := by
  intro acts
  induction acts with
  | nil =>
    intro e e' h0 h
    rw [runSteps] at h
    injection h with h
    rw [← h]
    exact h0
  | cons a rest ih =>
    intro e e' h0 h
    rw [runSteps] at h
    split at h
    · cases h
    · next e1 he1 => exact ih e1 e' (fun g hg => envStep_sync he1 g hg) h

/-- C8: in every reachable state whose group one-hot is set, the stored
group id equals the argmax of the group one-hot, and the applicant
sampler — the only operation that writes either field — always writes
them consistently. -/
theorem C8_group_sync (v : EnvVariant) (p : Params) (r : RandomState)
    (e : Env) (hreach : Reachable v p r e) :
    (∀ g, e.state.group = some g →
      e.state.group_id = some (npArgmax g)) ∧
    (∀ (s : LState) (g : List ℚ), (applicantUpdate s).group = some g →
      (applicantUpdate s).group_id = some (npArgmax g)) := by
  obtain ⟨acts, hrun⟩ := hreach
  refine ⟨runSteps_sync acts _ e ?_ hrun,
    fun s g h => applicantUpdate_sync s g h⟩
  intro g hg
  exact applicantUpdate_sync
    { rng := r, params := p, bank_cash := p.bank_starting_cash } g hg

/-- Witness for C8 at the reachable stepped environment: its stored
group id 0 is the argmax of its stored one-hot [1, 0]. -/
theorem C8_group_sync_witness :
    exStepEnv.state.group_id = some (npArgmax [1, 0]) :=
  (C8_group_sync .simple exParams ⟨0, 0⟩ exStepEnv
    ⟨[.ACCEPT], exStepEnv_reached⟩).1 [1, 0] rfl

end Lending
